import Mathlib

/-!
Verification development for the task-manager engine in `taskmanager.py`.

The Python module is embedded shallowly:

* `datetime.datetime` values are instants measured in seconds (`DT := Int`);
  the proleptic-Gregorian midnight of a calendar day is obtained through
  `toOrdinal`, which mirrors Python's `date.toordinal`.
* `datetime.datetime.now()` is an explicit parameter (`Now`): a calendar day
  plus a time-of-day offset.
* raising `ValueError` / `TypeError` is modelled with `Except PyErr`.
* Python object identity is modelled by a distinguished `oid` field on tasks:
  `Task` defines no `__eq__`, so `list.remove` and `in` compare by identity.
* `list.sort(key=...)` is a stable sort by the given key; it is modelled with
  `List.mergeSort`, which is stable.
* instants are unbounded integers: Python's `datetime` restricts years to
  1–9999 and raises `OverflowError` outside that range, a resource bound the
  model abstracts away; digit strings here are ASCII decimal digits.
-/

namespace TM

/-- Error kinds raised by the validators in `taskmanager.py`: `ValueError`
(covering the length and format failures), `TypeError` (wrong input kind for
a due date), and `IndexError` (subscripting the empty string in the offset
arm of `validDate`). -/
inductive PyErr where
  | valueError
  | typeError
  | indexError
deriving DecidableEq, Repr

deriving instance DecidableEq for Except

/-- `titleLimit = 20` in the source. -/
def titleLimit : Nat := 20

/-- `descriptionLimit = 90` in the source. -/
def descriptionLimit : Nat := 90

/-- The `priorityTable` dict `{"low": 3, "medium": 2, "high": 1}`. Looking up
any other string raises `KeyError` in Python; constructed tasks only ever hold
the three listed values, and rank `0` here marks those unreachable lookups. -/
def priorityTable (p : String) : Nat :=
  if p = "low" then 3 else if p = "medium" then 2 else if p = "high" then 1 else 0

/-- Model of `shorten`: truncates to `limit` characters total, the last three
being dots; raises (`ValueError`) when `limit < 3`. -/
def shorten (message : String) (limit : Nat) : Except PyErr String :=
  if limit < 3 then .error .valueError
  else if message.length > limit then
    .ok (String.mk (message.data.take (limit - 3)) ++ "...")
  else .ok message

/-- A date-time instant, in seconds. Ordering of instants agrees with the
ordering of Python `datetime` values. -/
abbrev DT := Int

/-- Seconds per day: `datetime.timedelta(n)` adds `n` of these. -/
def secondsPerDay : Int := 86400

/-- Gregorian leap-year rule, as used by Python's `datetime`. -/
def isLeap (y : Nat) : Bool :=
  y % 4 = 0 && (y % 100 ≠ 0 || y % 400 = 0)

/-- Number of days in month `m` of year `y`. -/
def daysInMonth (y m : Nat) : Nat :=
  if m = 2 then (if isLeap y then 29 else 28)
  else if m = 4 ∨ m = 6 ∨ m = 9 ∨ m = 11 then 30
  else 31

/-- Days in all years before year `y` (proleptic Gregorian). -/
def daysBeforeYear (y : Nat) : Nat :=
  (y - 1) * 365 + (y - 1) / 4 - (y - 1) / 100 + (y - 1) / 400

/-- Days in year `y` before the first day of month `m`. -/
def daysBeforeMonth (y m : Nat) : Nat :=
  (List.range (m - 1)).foldl (fun acc i => acc + daysInMonth y (i + 1)) 0

/-- Python's `date(y, m, d).toordinal()`: day 1 is January 1 of year 1. -/
def toOrdinal (y m d : Nat) : Nat :=
  daysBeforeYear y + daysBeforeMonth y m + d

/-- The instant at midnight of calendar day `(y, m, d)`. -/
def dtOfDate (y m d : Nat) : DT :=
  (toOrdinal y m d : Int) * secondsPerDay

/-- Model of `datetime.datetime.now()`: the current calendar day together with
a time-of-day offset in seconds (a real clock has `0 ≤ timeOfDay < 86400`). -/
structure Now where
  year : Nat
  month : Nat
  day : Nat
  timeOfDay : Int
deriving DecidableEq, Repr

/-- The instant denoted by `datetime.datetime.now()`. -/
def Now.toDT (n : Now) : DT :=
  dtOfDate n.year n.month n.day + n.timeOfDay

/-- Python `str.isdigit` on the character list of a string: nonempty and all
decimal digits. -/
def isdigitL (l : List Char) : Bool :=
  l ≠ [] && l.all Char.isDigit

/-- Numeric value of a digit string, as Python `int(...)` on digits. -/
def natOfDigits (l : List Char) : Nat :=
  l.foldl (fun a c => a * 10 + (c.toNat - 48)) 0

/-- Python `str.split("/")` on the character list of a string. -/
def splitSlash : List Char → List (List Char)
  | [] => [[]]
  | c :: cs =>
    if c = '/' then [] :: splitSlash cs
    else
      match splitSlash cs with
      | g :: gs => (c :: g) :: gs
      | [] => [[c]]

/-- The `%d` component of `strptime`: one or two digits, value 1–31. -/
def parseDay (l : List Char) : Option Nat :=
  if isdigitL l = true ∧ l.length ≤ 2 ∧ 1 ≤ natOfDigits l ∧ natOfDigits l ≤ 31 then
    some (natOfDigits l)
  else none

/-- The `%m` component of `strptime`: one or two digits, value 1–12. -/
def parseMonth (l : List Char) : Option Nat :=
  if isdigitL l = true ∧ l.length ≤ 2 ∧ 1 ≤ natOfDigits l ∧ natOfDigits l ≤ 12 then
    some (natOfDigits l)
  else none

/-- The `%Y` component of `strptime`: exactly four digits. -/
def parseYear (l : List Char) : Option Nat :=
  if isdigitL l = true ∧ l.length = 4 then some (natOfDigits l) else none

/-- Model of `stringToDatetime` (= `datetime.strptime(date, "%d/%m/%Y")`):
the text must be three `/`-separated components with day and month in range,
the year exactly four digits, the day existing in that month, and the year at
least 1 (`datetime` rejects year 0). Yields midnight of that day. -/
def stringToDatetime (s : String) : Except PyErr DT :=
  match splitSlash s.data with
  | [ds, ms, ys] =>
    match parseDay ds, parseMonth ms, parseYear ys with
    | some d, some m, some y =>
      if 1 ≤ y ∧ d ≤ daysInMonth y m then .ok (dtOfDate y m d)
      else .error .valueError
    | _, _, _ => .error .valueError
  | _ => .error .valueError

/-- Model of `validTitle`: identity on titles of length at most `titleLimit`,
`ValueError` beyond it. -/
def validTitle (title : String) : Except PyErr String :=
  if title.length > titleLimit then .error .valueError else .ok title

/-- Model of `validPriority`: shorthands `h`/`m`/`l` normalize to the full
words, the full words pass through, anything else raises `ValueError`. -/
def validPriority (priority : String) : Except PyErr String :=
  if priority = "h" then .ok "high"
  else if priority = "m" then .ok "medium"
  else if priority = "l" then .ok "low"
  else if priority = "high" ∨ priority = "medium" ∨ priority = "low" then .ok priority
  else .error .valueError

/-- Model of `validDescription`: identity up to `descriptionLimit` characters,
`ValueError` beyond it. -/
def validDescription (description : String) : Except PyErr String :=
  if description.length > descriptionLimit then .error .valueError else .ok description

/-- Model of the field state of class `Task`. `oid` models Python object
identity (distinct objects never share an `oid`); the source compares `Task`
objects by identity, since the class defines no `__eq__`. -/
structure Task where
  oid : Nat
  title : String
  dueDate : DT
  priority : String
  description : String
  completed : Bool
deriving DecidableEq, Repr

/-- The raw due-date argument of `validDate`: a `datetime` object, a string,
or a value of any other type. -/
inductive DateInput where
  | dt (d : DT)
  | str (s : String)
  | other
deriving DecidableEq, Repr

/-- Tail of `validDate`: appends `"/" + today.strftime("%Y")` when the text
splits into exactly two `/`-separated pieces, then parses with
`stringToDatetime`. -/
def dateFallback (now : Now) (s : String) : Except PyErr DT :=
  let s2 := if (splitSlash s.data).length = 2 then s ++ "/" ++ toString now.year else s
  stringToDatetime s2

/-- Model of `validDate`. `now` stands for `datetime.datetime.now()`; `task`
is the optional task argument used when editing. Matching the source's `match`
statement: a `datetime` passes through, then the literals `today` and
`tomorrow`, then a digit string (days from now), then — only when `task` is
given — a `+`/`-` sign followed by digits offsets that task's due date, and
any remaining string falls through to `dateFallback`. The offset arm's guard
evaluates `task and offset[0] in ["+", "-"] and len(offset) > 1 and
offset[1:].isdigit()` left to right: with a task supplied, `offset[0]` on the
empty string raises `IndexError` before the length is ever tested, so that
case is an `indexError`, not a fall-through; a one-character string fails the
length test and falls through. This is the string branch of `validDate`,
split out as its own definition. -/
def validDateStr (now : Now) (task : Option Task) (s : String) : Except PyErr DT :=
  let today := now.toDT
  if s = "today" then .ok today
  else if s = "tomorrow" then .ok (today + secondsPerDay)
  else if isdigitL s.data then .ok (today + (natOfDigits s.data : Int) * secondsPerDay)
  else
    match task, s.data with
    | some _, [] => .error .indexError
    | some t, c :: c2 :: rest =>
      if (c = '+' ∨ c = '-') ∧ isdigitL (c2 :: rest) = true then
        if c = '+' then .ok (t.dueDate + (natOfDigits (c2 :: rest) : Int) * secondsPerDay)
        else .ok (t.dueDate - (natOfDigits (c2 :: rest) : Int) * secondsPerDay)
      else dateFallback now s
    | _, _ => dateFallback now s

/-- Model of `validDate`: a `datetime` object passes through unchanged, a
string is handled by `validDateStr`, and any other input kind raises
`TypeError`. -/
def validDate (now : Now) (task : Option Task) (date : DateInput) : Except PyErr DT :=
  match date with
  | .dt d => .ok d
  | .str s => validDateStr now task s
  | .other => .error .typeError

/-- Model of `Task.setDefaultAttributes`: the fixed default record. The
`shorten` call there only affects the printed notice, not the stored state. -/
def setDefaultAttributes (oid : Nat) (now : Now) : Task :=
  { oid := oid, title := "Default", dueDate := now.toDT, priority := "high"
    description := "Default", completed := false }

/-- Model of `Task.__init__`: validates the four fields in order; if all
succeed the task holds the validated values with `completed = False`, and on
the first failure the exception is caught and `setDefaultAttributes` runs.
`oid` is the identity of the freshly created object. -/
def Task.make (oid : Nat) (now : Now) (title : String) (dueDate : DateInput)
    (priority : String) (description : String) : Task :=
  match validTitle title, validDate now none dueDate,
      validPriority priority, validDescription description with
  | .ok t, .ok d, .ok p, .ok ds =>
    { oid := oid, title := t, dueDate := d, priority := p
      description := ds, completed := false }
  | _, _, _, _ => setDefaultAttributes oid now

/-- The uniqueness key used by `checkDuplicate`: the 4-tuple
`(task.title, task.dueDate, task.priority, task.description)`. -/
def taskKey (t : Task) : String × DT × String × String :=
  (t.title, t.dueDate, t.priority, t.description)

/-- The two sorting modes of the manager (`"date-then-priority"` and
`"priority-then-date"` in the source). -/
inductive SortingMode where
  | dateThenPriority
  | priorityThenDate
deriving DecidableEq, Repr

/-- Model of the state of class `TaskManager`. -/
structure TaskManager where
  tasks : List Task
  sortingMode : SortingMode
  descriptionView : Bool
deriving DecidableEq, Repr

/-- `TaskManager.__init__`: empty list, date-then-priority, standard view. -/
def TaskManager.init : TaskManager :=
  { tasks := [], sortingMode := .dateThenPriority, descriptionView := false }

/-- The sort key handed to `list.sort`:
`(task.dueDate, priorityTable[task.priority])` in date-then-priority mode and
`(priorityTable[task.priority], task.dueDate)` in priority-then-date mode. -/
def sortKey (mode : SortingMode) (t : Task) : Int × Int :=
  match mode with
  | .dateThenPriority => (t.dueDate, (priorityTable t.priority : Int))
  | .priorityThenDate => ((priorityTable t.priority : Int), t.dueDate)

/-- Lexicographic order on sort keys, as Python orders key tuples. -/
def keyLe (p q : Int × Int) : Bool :=
  decide (p.1 < q.1) || (decide (p.1 = q.1) && decide (p.2 ≤ q.2))

/-- Key comparison lifted to tasks under a sorting mode. -/
def taskLe (mode : SortingMode) (a b : Task) : Bool :=
  keyLe (sortKey mode a) (sortKey mode b)

/-- Model of `TaskManager.sortTasks`: `list.sort(key=...)` is a stable sort by
the key, modelled with the stable `List.mergeSort`. The source's `ValueError`
branch for an unrecognized mode is unreachable: `SortingMode` has exactly the
two recognized values. -/
def TaskManager.sortTasks (tm : TaskManager) : TaskManager :=
  { tm with tasks := tm.tasks.mergeSort (taskLe tm.sortingMode) }

/-- Model of `TaskManager.checkDuplicate`: `true` exactly when the source
raises `DuplicateTaskError`, i.e. when some existing task matches on the
4-tuple key. -/
def TaskManager.checkDuplicate (tm : TaskManager) (t : Task) : Bool :=
  tm.tasks.any (fun u => taskKey u = taskKey t)

/-- The loop of `addTasks`: appends batch elements one at a time, checking
each against the tasks present at that moment; the `Bool` records whether a
`DuplicateTaskError` aborted the loop. -/
def addLoop : List Task → List Task → List Task × Bool
  | acc, [] => (acc, false)
  | acc, t :: ts =>
    if acc.any (fun u => taskKey u = taskKey t) then (acc, true)
    else addLoop (acc ++ [t]) ts

/-- Model of `TaskManager.addTasks` on a batch (a single task is the
one-element batch). When the loop aborts on a duplicate the exception is
caught after the loop: the elements already appended stay and `sortTasks` is
not reached; otherwise the whole collection is resorted. -/
def TaskManager.addTasks (tm : TaskManager) (batch : List Task) : TaskManager :=
  match addLoop tm.tasks batch with
  | (l, true) => { tm with tasks := l }
  | (l, false) => TaskManager.sortTasks { tm with tasks := l }

/-- One application of the toggle in `toggleStatus`. -/
def toggleTask (t : Task) : Task :=
  { t with completed := !t.completed }

/-- In-place toggle of the task object with identity `r`, as seen through the
collection's task list. -/
def toggleOne (l : List Task) (r : Nat) : List Task :=
  l.map (fun t => if t.oid = r then toggleTask t else t)

/-- Model of `TaskManager.toggleStatus` on a batch of task references (object
identities), processed one at a time. -/
def TaskManager.toggleStatus (tm : TaskManager) (refs : List Nat) : TaskManager :=
  { tm with tasks := refs.foldl toggleOne tm.tasks }

/-- Model of `TaskManager.removeCompleted`. -/
def TaskManager.removeCompleted (tm : TaskManager) : TaskManager :=
  { tm with tasks := tm.tasks.filter (fun t => !t.completed) }

/-- Python `list.remove` by object identity: removes the first task with the
given identity, or fails (`ValueError`) when none is present. -/
def removeFirst : List Task → Nat → Option (List Task)
  | [], _ => none
  | t :: ts, r =>
    if t.oid = r then some ts
    else
      match removeFirst ts r with
      | some l => some (t :: l)
      | none => none

/-- The loop of `removeTasks`: removes referenced tasks one at a time; when a
reference is missing, `list.remove` raises, the loop stops, and the removals
already performed persist. -/
def removeLoop : List Task → List Nat → List Task
  | l, [] => l
  | l, r :: rs =>
    match removeFirst l r with
    | some l2 => removeLoop l2 rs
    | none => l

/-- Model of `TaskManager.removeTasks` on a batch of task references (object
identities); the `ValueError` from a missing reference is caught after the
loop. -/
def TaskManager.removeTasks (tm : TaskManager) (refs : List Nat) : TaskManager :=
  { tm with tasks := removeLoop tm.tasks refs }

/-- Model of `TaskManager.reset`. -/
def TaskManager.reset (tm : TaskManager) : TaskManager :=
  { tm with tasks := [] }

/-- Model of `TaskManager.switchSortingMode`: toggles the mode and resorts. -/
def TaskManager.switchSortingMode (tm : TaskManager) : TaskManager :=
  TaskManager.sortTasks
    { tm with
      sortingMode :=
        if tm.sortingMode = .dateThenPriority then .priorityThenDate
        else .dateThenPriority }

/-- Specification vocabulary: the list is ordered by the mode's two-component
key (every earlier task compares at most every later one). -/
def sortedByB (mode : SortingMode) : List Task → Bool
  | [] => true
  | t :: ts => ts.all (fun u => taskLe mode t u) && sortedByB mode ts

/-- Specification vocabulary: the manager's task list is sorted according to
its current sorting mode. -/
def TaskManager.isSorted (tm : TaskManager) : Bool :=
  sortedByB tm.sortingMode tm.tasks

/-- Specification vocabulary: the calendar day an instant falls on. -/
def calendarDay (d : DT) : Int :=
  Int.fdiv d secondsPerDay

/-- Specification vocabulary (not a source function): remove the referenced
tasks one at a time, failing outright if any reference is missing; used to
phrase which prefix of a removal batch succeeds. -/
def removeAll : List Task → List Nat → Option (List Task)
  | l, [] => some l
  | l, r :: rs =>
    match removeFirst l r with
    | some l2 => removeAll l2 rs
    | none => none

/-- Specification vocabulary: the guard of the source's `+N`/`-N` offset arm —
at least two characters, a sign first, digits after. -/
def offsetFormB (s : String) : Bool :=
  match s.data with
  | c :: c2 :: rest => (c = '+' ∨ c = '-') ∧ isdigitL (c2 :: rest) = true
  | _ => false

/-! Concrete sample data used by the witnesses and counterexamples. -/

/-- A sample task due on day 2. -/
def taskA : Task := ⟨1, "A", 2 * 86400, "high", "a", false⟩

/-- A task agreeing with `taskA` on the whole 4-tuple key but a distinct
object with the opposite `completed` flag. -/
def taskA2 : Task := ⟨7, "A", 2 * 86400, "high", "a", true⟩

/-- A sample task due on day 1, so it sorts before `taskA` by date. -/
def taskB : Task := ⟨2, "B", 1 * 86400, "high", "b", false⟩

/-- A sample low-priority task due on day 3. -/
def taskC : Task := ⟨4, "C", 3 * 86400, "low", "c", false⟩

/-- A manager holding just `taskA`, in date-then-priority mode. -/
def tmA : TaskManager := ⟨[taskA], .dateThenPriority, false⟩

/-- A sample current instant: March 10 2025, 7 seconds past midnight. -/
def nowW : Now := ⟨2025, 3, 10, 7⟩

/-- An unsorted manager holding the three sample tasks. -/
def tmS : TaskManager := ⟨[taskA, taskC, taskB], .dateThenPriority, false⟩

/-- A manager holding `taskA` and `taskB`, for the removal examples. -/
def tmR : TaskManager := ⟨[taskA, taskB], .dateThenPriority, false⟩

/-- A sample existing task due on February 18 1930, for the `+N`/`-N` form. -/
def taskOld : Task := ⟨0, "old", dtOfDate 1930 2 18, "high", "x", false⟩

/-- A task due 100 seconds into day 0, as if created from `today`. -/
def taskT1 : Task := ⟨11, "T", 100, "high", "x", false⟩

/-- A task otherwise identical to `taskT1` but due 200 seconds into day 0, as
if created from `today` a little later. -/
def taskT2 : Task := ⟨12, "T", 200, "high", "x", false⟩

/-! Helper lemmas shared by the claim theorems. -/

theorem keyLe_trans (p q r : Int × Int) (h1 : keyLe p q = true) (h2 : keyLe q r = true) :
    keyLe p r = true := by
  simp only [keyLe, Bool.or_eq_true, Bool.and_eq_true, decide_eq_true_eq] at *
  omega

theorem keyLe_total (p q : Int × Int) : (keyLe p q || keyLe q p) = true := by
  simp only [keyLe, Bool.or_eq_true, Bool.and_eq_true, decide_eq_true_eq]
  omega

theorem taskLe_trans (mode : SortingMode) (a b c : Task) (h1 : taskLe mode a b = true)
    (h2 : taskLe mode b c = true) : taskLe mode a c = true :=
  keyLe_trans _ _ _ h1 h2

theorem taskLe_total (mode : SortingMode) (a b : Task) :
    (taskLe mode a b || taskLe mode b a) = true :=
  keyLe_total _ _

theorem sortedByB_iff_pairwise (mode : SortingMode) (l : List Task) :
    sortedByB mode l = true ↔ l.Pairwise (fun a b => taskLe mode a b = true) := by
  induction l with
  | nil => simp [sortedByB]
  | cons t ts ih => simp [sortedByB, List.pairwise_cons, List.all_eq_true, ih, and_comm]

theorem isSorted_sortTasks (tm : TaskManager) : (tm.sortTasks).isSorted = true := by
  show sortedByB tm.sortingMode (tm.tasks.mergeSort (taskLe tm.sortingMode)) = true
  rw [sortedByB_iff_pairwise]
  exact List.sorted_mergeSort (taskLe_trans tm.sortingMode) (taskLe_total tm.sortingMode) tm.tasks

theorem toggleOne_toggleOne (r : Nat) (l : List Task) : toggleOne (toggleOne l r) r = l := by
  induction l with
  | nil => rfl
  | cons t ts ih =>
    have hcons : ∀ (x : Task) (xs : List Task),
        toggleOne (x :: xs) r = (if x.oid = r then toggleTask x else x) :: toggleOne xs r :=
      fun x xs => rfl
    rw [hcons, hcons, ih]
    obtain ⟨o, ti, dd, pr, de, co⟩ := t
    by_cases h : o = r
    · subst h
      simp [toggleTask]
    · simp [toggleTask, h]

/-- C10: toggling completion twice is the identity, both on a single task
record and on a collection in which a task reference is toggled twice in
succession; in particular the `completed` flag returns to its original
value. -/
theorem toggleStatus_twice_id (tm : TaskManager) (t : Task) (r : Nat) :
    toggleTask (toggleTask t) = t ∧
    ((toggleTask (toggleTask t)).completed = t.completed) ∧
    (tm.toggleStatus [r]).toggleStatus [r] = tm := by
  refine ⟨by simp [toggleTask], by simp [toggleTask], ?_⟩
  show ({ tm with tasks := toggleOne (toggleOne tm.tasks r) r } : TaskManager) = tm
  rw [toggleOne_toggleOne]

/-- C8: `validPriority` maps the case-sensitive shorthands `h`, `m`, `l` and
the full words `high`, `medium`, `low` to the three priorities, and fails with
`ValueError` on every other token. -/
theorem validPriority_spec (p : String)
    (hp : p ∉ (["h", "m", "l", "high", "medium", "low"] : List String)) :
    validPriority "h" = .ok "high" ∧ validPriority "m" = .ok "medium" ∧
    validPriority "l" = .ok "low" ∧ validPriority "high" = .ok "high" ∧
    validPriority "medium" = .ok "medium" ∧ validPriority "low" = .ok "low" ∧
    validPriority p = .error .valueError := by
  refine ⟨by decide, by decide, by decide, by decide, by decide, by decide, ?_⟩
  simp only [List.mem_cons, List.not_mem_nil, or_false, not_or] at hp
  obtain ⟨h1, h2, h3, h4, h5, h6⟩ := hp
  simp [validPriority, h1, h2, h3, h4, h5, h6]

/-- C8 witness: the shorthand table holds and the capitalized token `H` is
rejected. -/
theorem validPriority_spec_witness :
    ("H" : String) ∉ (["h", "m", "l", "high", "medium", "low"] : List String) ∧
    (validPriority "h" = .ok "high" ∧ validPriority "m" = .ok "medium" ∧
      validPriority "l" = .ok "low" ∧ validPriority "high" = .ok "high" ∧
      validPriority "medium" = .ok "medium" ∧ validPriority "low" = .ok "low" ∧
      validPriority "H" = .error .valueError) :=
  ⟨by decide, validPriority_spec "H" (by decide)⟩

/-- C7: a task equal to a present one on the 4-tuple key is flagged by
`checkDuplicate` and rejected by `addTasks`, whatever the two `completed`
flags are: the manager state is unchanged. -/
theorem duplicate_key_excludes_completed (tm : TaskManager) (t1 t2 : Task)
    (h1 : t1 ∈ tm.tasks) (h2 : taskKey t1 = taskKey t2) :
    tm.checkDuplicate t2 = true ∧ tm.addTasks [t2] = tm := by
  have hc : tm.tasks.any (fun u => decide (taskKey u = taskKey t2)) = true := by
    simp only [List.any_eq_true, decide_eq_true_eq]
    exact ⟨t1, h1, h2⟩
  refine ⟨hc, ?_⟩
  show (match addLoop tm.tasks [t2] with
        | (l, true) => { tm with tasks := l }
        | (l, false) => TaskManager.sortTasks { tm with tasks := l }) = tm
  have hstep : addLoop tm.tasks [t2] = (tm.tasks, true) := by
    show (if tm.tasks.any (fun u => decide (taskKey u = taskKey t2)) = true
          then (tm.tasks, true) else addLoop (tm.tasks ++ [t2]) []) = (tm.tasks, true)
    rw [if_pos hc]
  rw [hstep]

theorem isSorted_iff (tm : TaskManager) :
    tm.isSorted = true ↔ tm.tasks.Pairwise (fun a b => taskLe tm.sortingMode a b = true) :=
  sortedByB_iff_pairwise _ _

theorem removeFirst_sublist (l : List Task) (r : Nat) (l2 : List Task)
    (h : removeFirst l r = some l2) : l2.Sublist l := by
  induction l generalizing l2 with
  | nil => simp [removeFirst] at h
  | cons t ts ih =>
    unfold removeFirst at h
    by_cases ho : t.oid = r
    · rw [if_pos ho] at h
      cases h
      exact List.sublist_cons_self t ts
    · rw [if_neg ho] at h
      cases hrec : removeFirst ts r with
      | none => rw [hrec] at h; cases h
      | some l3 =>
        rw [hrec] at h
        cases h
        exact (ih l3 hrec).cons₂ t

theorem removeLoop_sublist (refs : List Nat) (l : List Task) :
    (removeLoop l refs).Sublist l := by
  induction refs generalizing l with
  | nil => exact List.Sublist.refl l
  | cons r rs ih =>
    show (match removeFirst l r with
          | some l2 => removeLoop l2 rs
          | none => l).Sublist l
    cases hrf : removeFirst l r with
    | none => exact List.Sublist.refl l
    | some l2 => exact (ih l2).trans (removeFirst_sublist l r l2 hrf)

theorem sortKey_toggle_if (mode : SortingMode) (r : Nat) (t : Task) :
    sortKey mode (if t.oid = r then toggleTask t else t) = sortKey mode t := by
  by_cases h : t.oid = r <;> cases mode <;> simp [h, sortKey, toggleTask]

theorem pairwise_toggleOne (mode : SortingMode) (r : Nat) (l : List Task)
    (h : l.Pairwise (fun a b => taskLe mode a b = true)) :
    (toggleOne l r).Pairwise (fun a b => taskLe mode a b = true) := by
  refine List.Pairwise.map _ ?_ h
  intro a b hab
  show keyLe (sortKey mode (if a.oid = r then toggleTask a else a))
      (sortKey mode (if b.oid = r then toggleTask b else b)) = true
  rw [sortKey_toggle_if, sortKey_toggle_if]
  exact hab

theorem pairwise_foldl_toggle (mode : SortingMode) (refs : List Nat) (l : List Task)
    (h : l.Pairwise (fun a b => taskLe mode a b = true)) :
    (refs.foldl toggleOne l).Pairwise (fun a b => taskLe mode a b = true) := by
  induction refs generalizing l with
  | nil => exact h
  | cons r rs ih => exact ih (toggleOne l r) (pairwise_toggleOne mode r l h)

/-- C6: `sortTasks` sorts by the mode's lexicographic two-component key —
due date then priority rank (High = 1, Medium = 2, Low = 3) in
date-then-priority mode, priority rank then due date in the other mode — as a
permutation of the input, and stably: tasks equal on both keys keep their
relative order. -/
theorem sortTasks_spec (tm : TaskManager)
    (hp : ∀ t ∈ tm.tasks, t.priority = "high" ∨ t.priority = "medium" ∨ t.priority = "low") :
    priorityTable "high" = 1 ∧ priorityTable "medium" = 2 ∧ priorityTable "low" = 3 ∧
    (tm.sortTasks).tasks.Perm tm.tasks ∧
    List.Pairwise (fun a b => taskLe tm.sortingMode a b = true) (tm.sortTasks).tasks ∧
    (∀ a b : Task, sortKey tm.sortingMode a = sortKey tm.sortingMode b →
      [a, b].Sublist tm.tasks → [a, b].Sublist (tm.sortTasks).tasks) := by
  refine ⟨by decide, by decide, by decide, ?_, ?_, ?_⟩
  · exact List.mergeSort_perm tm.tasks (taskLe tm.sortingMode)
  · exact List.sorted_mergeSort (taskLe_trans tm.sortingMode) (taskLe_total tm.sortingMode)
      tm.tasks
  · intro a b hk hsub
    refine List.pair_sublist_mergeSort (taskLe_trans tm.sortingMode)
      (taskLe_total tm.sortingMode) ?_ hsub
    show keyLe (sortKey tm.sortingMode a) (sortKey tm.sortingMode b) = true
    rw [hk]
    simp [keyLe]

/-- C6 witness: the sorting specification applied to a concrete three-task
manager whose priorities are all valid. -/
theorem sortTasks_spec_witness :
    (∀ t ∈ tmS.tasks, t.priority = "high" ∨ t.priority = "medium" ∨ t.priority = "low") ∧
    (priorityTable "high" = 1 ∧ priorityTable "medium" = 2 ∧ priorityTable "low" = 3 ∧
      (tmS.sortTasks).tasks.Perm tmS.tasks ∧
      List.Pairwise (fun a b => taskLe tmS.sortingMode a b = true) (tmS.sortTasks).tasks ∧
      (∀ a b : Task, sortKey tmS.sortingMode a = sortKey tmS.sortingMode b →
        [a, b].Sublist tmS.tasks → [a, b].Sublist (tmS.sortTasks).tasks)) :=
  ⟨by decide, sortTasks_spec tmS (by decide)⟩

/-- C3 counterexample: the claimed invariant fails for `addTasks` when a
duplicate is encountered: starting from a sorted manager, the batch elements
appended before the duplicate stay appended and the exception skips the
resort, leaving the list unsorted. -/
theorem sorted_invariant_cex :
    tmA.isSorted = true ∧ (tmA.addTasks [taskB, taskA2]).isSorted = false := by decide

/-- C3 as amended: starting from a manager whose task list is sorted for its
current mode, the list is again sorted after `removeTasks`, `removeCompleted`,
`toggleStatus`, `reset` and `switchSortingMode`, and after `addTasks` whenever
no duplicate is encountered; when `addTasks` hits a duplicate the resort is
skipped (see the counterexample). -/
theorem mutating_ops_keep_sorted (tm : TaskManager) (refs : List Nat) (batch : List Task)
    (h : tm.isSorted = true) (hnd : (addLoop tm.tasks batch).2 = false) :
    (tm.addTasks batch).isSorted = true ∧
    (tm.removeTasks refs).isSorted = true ∧
    tm.removeCompleted.isSorted = true ∧
    (tm.toggleStatus refs).isSorted = true ∧
    tm.reset.isSorted = true ∧
    tm.switchSortingMode.isSorted = true := by
  have hpw := (isSorted_iff tm).1 h
  refine ⟨?_, ?_, ?_, ?_, rfl, isSorted_sortTasks _⟩
  · rcases hal : addLoop tm.tasks batch with ⟨l, b⟩
    rw [hal] at hnd
    cases b with
    | true => exact absurd hnd (by simp)
    | false =>
      show (match addLoop tm.tasks batch with
            | (l, true) => { tm with tasks := l }
            | (l, false) => TaskManager.sortTasks { tm with tasks := l }).isSorted = true
      rw [hal]
      exact isSorted_sortTasks _
  · exact (isSorted_iff _).2 (List.Pairwise.sublist (removeLoop_sublist refs tm.tasks) hpw)
  · exact (isSorted_iff _).2 (List.Pairwise.sublist (List.filter_sublist tm.tasks) hpw)
  · exact (isSorted_iff _).2 (pairwise_foldl_toggle tm.sortingMode refs tm.tasks hpw)

/-- C3 witness: the amended invariant applied to a concrete sorted manager, a
removal batch and a duplicate-free add batch. -/
theorem mutating_ops_keep_sorted_witness :
    tmA.isSorted = true ∧ (addLoop tmA.tasks [taskB]).2 = false ∧
    ((tmA.addTasks [taskB]).isSorted = true ∧
      (tmA.removeTasks [1, 99]).isSorted = true ∧
      tmA.removeCompleted.isSorted = true ∧
      (tmA.toggleStatus [1, 99]).isSorted = true ∧
      tmA.reset.isSorted = true ∧
      tmA.switchSortingMode.isSorted = true) :=
  ⟨by decide, by decide, mutating_ops_keep_sorted tmA [1, 99] [taskB] (by decide) (by decide)⟩

/-- C7 witness: with two tasks agreeing on the 4-tuple but with opposite
`completed` flags, the duplicate is flagged and the add is rejected. -/
theorem duplicate_key_excludes_completed_witness :
    taskA ∈ tmA.tasks ∧ taskKey taskA = taskKey taskA2 ∧
    (tmA.checkDuplicate taskA2 = true ∧ tmA.addTasks [taskA2] = tmA) :=
  ⟨by decide, by decide,
    duplicate_key_excludes_completed tmA taskA taskA2 (by decide) (by decide)⟩

theorem addLoop_abort (pre : List Task) : ∀ (acc : List Task) (d : Task) (post : List Task),
    (addLoop acc pre).2 = false →
    (acc ++ pre).any (fun u => taskKey u = taskKey d) = true →
    addLoop acc (pre ++ d :: post) = (acc ++ pre, true) := by
  induction pre with
  | nil =>
    intro acc d post _ h2
    simp only [List.append_nil] at h2 ⊢
    simp [addLoop, h2]
  | cons t ts ih =>
    intro acc d post h1 h2
    by_cases hdup : acc.any (fun u => taskKey u = taskKey t) = true
    · exfalso
      simp [addLoop, hdup] at h1
    · have hstep : ∀ (rest : List Task), addLoop acc (t :: rest) = addLoop (acc ++ [t]) rest := by
        intro rest
        simp [addLoop, hdup]
      rw [List.cons_append, hstep (ts ++ d :: post)]
      rw [hstep ts] at h1
      rw [ih (acc ++ [t]) d post h1 (by simpa [List.append_assoc] using h2)]
      simp

/-- C1 counterexample: in the batch `[taskB, taskA2, taskC]` added to a
manager holding `taskA`, only `taskA2` duplicates an existing task, yet the
non-duplicate `taskC` — which matches no other task on the 4-tuple key — is
not added, contradicting the claim that every non-duplicate task in the batch
is still added. -/
theorem addTasks_batch_cex :
    taskKey taskC ≠ taskKey taskA ∧ taskKey taskC ≠ taskKey taskB ∧
    taskKey taskC ≠ taskKey taskA2 ∧
    taskC ∉ (tmA.addTasks [taskB, taskA2, taskC]).tasks := by decide

/-- C1 as amended: a batch given to `addTasks` is processed in order; the
tasks before the first duplicate are appended, the duplicate raises, and the
caught exception skips both the rest of the batch and the resort — the
resulting state is exactly the old tasks followed by the pre-duplicate prefix,
with mode and view unchanged. -/
theorem addTasks_first_duplicate_aborts (tm : TaskManager) (pre post : List Task) (d : Task)
    (h1 : (addLoop tm.tasks pre).2 = false)
    (h2 : ({ tm with tasks := tm.tasks ++ pre } : TaskManager).checkDuplicate d = true) :
    tm.addTasks (pre ++ d :: post) = { tm with tasks := tm.tasks ++ pre } := by
  have h2x : (tm.tasks ++ pre).any (fun u => taskKey u = taskKey d) = true := h2
  have habort := addLoop_abort pre tm.tasks d post h1 h2x
  show (match addLoop tm.tasks (pre ++ d :: post) with
        | (l, true) => { tm with tasks := l }
        | (l, false) => TaskManager.sortTasks { tm with tasks := l }) =
      { tm with tasks := tm.tasks ++ pre }
  rw [habort]

/-- C1 witness: adding `[taskB, taskA2, taskC]` to the manager holding
`taskA` stops at the duplicate `taskA2`: `taskB` stays appended, `taskC` is
never reached, and no resort happens. -/
theorem addTasks_first_duplicate_aborts_witness :
    (addLoop tmA.tasks [taskB]).2 = false ∧
    ({ tmA with tasks := tmA.tasks ++ [taskB] } : TaskManager).checkDuplicate taskA2 = true ∧
    tmA.addTasks ([taskB] ++ taskA2 :: [taskC]) = { tmA with tasks := tmA.tasks ++ [taskB] } :=
  ⟨by decide, by decide,
    addTasks_first_duplicate_aborts tmA [taskB] [taskC] taskA2 (by decide) (by decide)⟩

theorem removeLoop_of_removeAll (pre : List Nat) : ∀ (l l2 : List Task) (rest : List Nat),
    removeAll l pre = some l2 → removeLoop l (pre ++ rest) = removeLoop l2 rest := by
  induction pre with
  | nil =>
    intro l l2 rest h
    cases h
    simp
  | cons r rs ih =>
    intro l l2 rest h
    cases hrf : removeFirst l r with
    | none => simp [removeAll, hrf] at h
    | some lmid =>
      have hrec : removeAll lmid rs = some l2 := by simpa [removeAll, hrf] using h
      rw [List.cons_append]
      show (match removeFirst l r with
            | some lx => removeLoop lx (rs ++ rest)
            | none => l) = removeLoop l2 rest
      rw [hrf]
      exact ih lmid l2 rest hrec

/-- C2 counterexample: removing the batch `[1, 99]` from the manager holding
`taskA` (identity 1) and `taskB` (identity 2) hits the missing reference `99`
only after `taskA` is already removed: the collection is changed, so the
removal is not all-or-nothing as claimed. -/
theorem removeTasks_batch_cex :
    tmR.tasks.all (fun t => t.oid ≠ 99) = true ∧
    tmR.removeTasks [1, 99] ≠ tmR ∧
    (tmR.removeTasks [1, 99]).tasks = [taskB] := by decide

/-- C2 as amended: `removeTasks` removes the referenced tasks one at a time;
at the first missing reference the raised `ValueError` stops the loop, so the
removals already performed persist while the missing reference and everything
after it in the batch are left unprocessed. -/
theorem removeTasks_stops_at_missing (tm : TaskManager) (pre post : List Nat) (r : Nat)
    (l2 : List Task) (h1 : removeAll tm.tasks pre = some l2)
    (h2 : removeFirst l2 r = none) :
    tm.removeTasks (pre ++ r :: post) = { tm with tasks := l2 } := by
  show { tm with tasks := removeLoop tm.tasks (pre ++ r :: post) } = { tm with tasks := l2 }
  rw [removeLoop_of_removeAll pre tm.tasks l2 (r :: post) h1]
  simp [removeLoop, h2]

/-- C2 witness: removing `[1, 99, 2]` from the manager holding `taskA` and
`taskB` removes `taskA`, stops at the missing reference `99`, and leaves
`taskB` in place even though its reference `2` appears later in the batch. -/
theorem removeTasks_stops_at_missing_witness :
    removeAll tmR.tasks [1] = some [taskB] ∧
    removeFirst [taskB] 99 = none ∧
    tmR.removeTasks ([1] ++ 99 :: [2]) = { tmR with tasks := [taskB] } :=
  ⟨by decide, by decide,
    removeTasks_stops_at_missing tmR [1] [2] 99 [taskB] (by decide) (by decide)⟩


theorem validTitle_ok (t v : String) (h : validTitle t = .ok v) : v = t := by
  unfold validTitle at h
  split at h <;> simp_all

theorem validDescription_ok (t v : String) (h : validDescription t = .ok v) : v = t := by
  unfold validDescription at h
  split at h <;> simp_all

/-- C4: `Task` construction is total on the embedded inputs: the `completed`
flag is always `false`; when the four validators succeed the task carries
exactly the validated values (title and description pass through unchanged);
and when any validator fails the task is the full default record — no
partially-valid field survives. -/
theorem task_make_spec (oid : Nat) (now : Now) (title : String) (due : DateInput)
    (prio descr : String) :
    (Task.make oid now title due prio descr).completed = false ∧
    (∀ t2 p2 ds2 d2, validTitle title = .ok t2 → validDate now none due = .ok d2 →
      validPriority prio = .ok p2 → validDescription descr = .ok ds2 →
      Task.make oid now title due prio descr = ⟨oid, t2, d2, p2, ds2, false⟩ ∧
        t2 = title ∧ ds2 = descr) ∧
    ((validTitle title).isOk = false ∨ (validDate now none due).isOk = false ∨
      (validPriority prio).isOk = false ∨ (validDescription descr).isOk = false →
      Task.make oid now title due prio descr =
        ⟨oid, "Default", now.toDT, "high", "Default", false⟩) := by
  refine ⟨?_, ?_, ?_⟩
  · rcases hT : validTitle title with eT | vT <;>
      rcases hD : validDate now none due with eD | vD <;>
      rcases hP : validPriority prio with eP | vP <;>
      rcases hDs : validDescription descr with eDs | vDs <;>
      simp [Task.make, hT, hD, hP, hDs, setDefaultAttributes]
  · intro t2 p2 ds2 d2 hok1 hok2 hok3 hok4
    refine ⟨by simp [Task.make, hok1, hok2, hok3, hok4], validTitle_ok title t2 hok1,
      validDescription_ok descr ds2 hok4⟩
  · intro hfail
    rcases hT : validTitle title with eT | vT
    · simp [Task.make, hT, setDefaultAttributes]
    rcases hD : validDate now none due with eD | vD
    · simp [Task.make, hT, hD, setDefaultAttributes]
    rcases hP : validPriority prio with eP | vP
    · simp [Task.make, hT, hD, hP, setDefaultAttributes]
    rcases hDs : validDescription descr with eDs | vDs
    · simp [Task.make, hT, hD, hP, hDs, setDefaultAttributes]
    exfalso
    simp [hT, hD, hP, hDs, Except.isOk, Except.toBool] at hfail

/-- C4 witness: the specification applied to a fully valid input
(`"Read"`, `"20/05/2002"`, shorthand `"h"`) and checked at that input. -/
theorem task_make_spec_witness :
    ((Task.make 9 nowW "Read" (.str "20/05/2002") "h" "novel").completed = false ∧
      (∀ t2 p2 ds2 d2, validTitle "Read" = .ok t2 →
        validDate nowW none (.str "20/05/2002") = .ok d2 →
        validPriority "h" = .ok p2 → validDescription "novel" = .ok ds2 →
        Task.make 9 nowW "Read" (.str "20/05/2002") "h" "novel" = ⟨9, t2, d2, p2, ds2, false⟩ ∧
          t2 = "Read" ∧ ds2 = "novel") ∧
      ((validTitle "Read").isOk = false ∨
        (validDate nowW none (.str "20/05/2002")).isOk = false ∨
        (validPriority "h").isOk = false ∨ (validDescription "novel").isOk = false →
        Task.make 9 nowW "Read" (.str "20/05/2002") "h" "novel" =
          ⟨9, "Default", nowW.toDT, "high", "Default", false⟩)) ∧
    Task.make 9 nowW "Read" (.str "20/05/2002") "h" "novel" =
      ⟨9, "Read", dtOfDate 2002 5 20, "high", "novel", false⟩ ∧
    Task.make 9 nowW "Read" (.str "never") "h" "novel" =
      ⟨9, "Default", nowW.toDT, "high", "Default", false⟩ :=
  ⟨task_make_spec 9 nowW "Read" (.str "20/05/2002") "h" "novel", by decide, by decide⟩

/-- C9: the duplicate key compares due dates as full date-times: two tasks
agreeing on title, priority and description whose due dates fall on the same
calendar day but at different instants are not duplicates — `checkDuplicate`
stays silent and `addTasks` puts both into the collection. -/
theorem same_day_different_time_not_duplicate (tm : TaskManager) (t1 t2 : Task)
    (ht : t1.title = t2.title) (hpr : t1.priority = t2.priority)
    (hde : t1.description = t2.description)
    (hday : calendarDay t1.dueDate = calendarDay t2.dueDate)
    (hne : t1.dueDate ≠ t2.dueDate)
    (hc1 : tm.checkDuplicate t1 = false) (hc2 : tm.checkDuplicate t2 = false) :
    ({ tm with tasks := tm.tasks ++ [t1] } : TaskManager).checkDuplicate t2 = false ∧
    t1 ∈ (tm.addTasks [t1, t2]).tasks ∧ t2 ∈ (tm.addTasks [t1, t2]).tasks := by
  have hkey : taskKey t1 ≠ taskKey t2 := by
    intro hk
    exact hne (congrArg (fun q => q.2.1) hk)
  have hchk : ({ tm with tasks := tm.tasks ++ [t1] } : TaskManager).checkDuplicate t2 = false := by
    show (tm.tasks ++ [t1]).any (fun u => taskKey u = taskKey t2) = false
    rw [List.any_append]
    have hc2x : tm.tasks.any (fun u => decide (taskKey u = taskKey t2)) = false := hc2
    rw [hc2x]
    simp [hkey]
  refine ⟨hchk, ?_, ?_⟩ <;>
  · have hc1x : tm.tasks.any (fun u => decide (taskKey u = taskKey t1)) = false := hc1
    have hc2y : (tm.tasks ++ [t1]).any (fun u => decide (taskKey u = taskKey t2)) = false := hchk
    have hloop : addLoop tm.tasks [t1, t2] = ((tm.tasks ++ [t1]) ++ [t2], false) := by
      simp [addLoop, hc1x, hc2y]
    have hadd : tm.addTasks [t1, t2] =
        TaskManager.sortTasks { tm with tasks := (tm.tasks ++ [t1]) ++ [t2] } := by
      show (match addLoop tm.tasks [t1, t2] with
            | (l, true) => { tm with tasks := l }
            | (l, false) => TaskManager.sortTasks { tm with tasks := l }) = _
      rw [hloop]
    rw [hadd]
    show _ ∈ ((tm.tasks ++ [t1]) ++ [t2]).mergeSort _
    rw [List.mem_mergeSort]
    simp

/-- C9 witness: two tasks built as if from `today` at different instants of
the same day (100 s and 200 s past midnight of day 0) are both added to an
empty manager. -/
theorem same_day_different_time_not_duplicate_witness :
    (taskT1.title = taskT2.title ∧ taskT1.priority = taskT2.priority ∧
      taskT1.description = taskT2.description ∧
      calendarDay taskT1.dueDate = calendarDay taskT2.dueDate ∧
      taskT1.dueDate ≠ taskT2.dueDate ∧
      TaskManager.init.checkDuplicate taskT1 = false ∧
      TaskManager.init.checkDuplicate taskT2 = false) ∧
    (({ TaskManager.init with
          tasks := TaskManager.init.tasks ++ [taskT1] } : TaskManager).checkDuplicate taskT2 =
        false ∧
      taskT1 ∈ (TaskManager.init.addTasks [taskT1, taskT2]).tasks ∧
      taskT2 ∈ (TaskManager.init.addTasks [taskT1, taskT2]).tasks) :=
  ⟨⟨by decide, by decide, by decide, by decide, by decide, by decide, by decide⟩,
    same_day_different_time_not_duplicate TaskManager.init taskT1 taskT2
      (by decide) (by decide) (by decide) (by decide) (by decide) (by decide) (by decide)⟩


theorem string_ne_of_data (s t : String) (h : s.data ≠ t.data) : s ≠ t :=
  fun he => h (congrArg String.data he)

theorem string_ne_of_head_ne (s t : String) (c ct : Char) (cs cts : List Char)
    (hs : s.data = c :: cs) (ht : t.data = ct :: cts) (hne : c ≠ ct) : s ≠ t := by
  apply string_ne_of_data
  rw [hs, ht]
  intro hq
  injection hq with hq1 hq2
  exact hne hq1

theorem isdigitL_cons_false (c : Char) (l : List Char) (hc : c.isDigit = false) :
    isdigitL (c :: l) = false := by
  simp [isdigitL, List.all_cons, hc]

/-- Every failure of the date parser is a `ValueError` (format error), never
a `TypeError` or an `IndexError`. -/
theorem stringToDatetime_not_typeError (s : String) :
    stringToDatetime s ≠ .error .typeError ∧ stringToDatetime s ≠ .error .indexError := by
  constructor <;>
  · unfold stringToDatetime
    split
    · split
      · split <;> simp
      · simp
    · simp

theorem data_plus (s : String) : ("+" ++ s).data = '+' :: s.data := by
  rw [String.data_append, show ("+" : String).data = ['+'] from rfl, List.singleton_append]

theorem data_minus (s : String) : ("-" ++ s).data = '-' :: s.data := by
  rw [String.data_append, show ("-" : String).data = ['-'] from rfl, List.singleton_append]


/-- C5 counterexample: with an existing task supplied and the empty string as
input, the source's offset guard evaluates `offset[0]` before the length
test, raising `IndexError` — the string is never parsed as a date, so it does
not fail with the format error the claim asserts for every remaining string. -/
theorem validDate_empty_offset_cex :
    validDate nowW (some taskOld) (.str "") = .error .indexError ∧
    validDate nowW (some taskOld) (.str "") ≠ dateFallback nowW "" ∧
    dateFallback nowW "" = .error .valueError := by decide

/-- C5 as amended: the due-date grammar of `validDate`: a concrete date-time
passes through unchanged; `today` yields now and `tomorrow` now plus one day;
a digit string `N` yields now plus `N` days; with an existing task supplied,
`+N` and `-N` offset that task's due date by `N` days, while without a task
the same text falls through to date parsing; with a task supplied the empty
string raises `IndexError` (the guard subscripts the text before testing its
length), while without a task it falls through to date parsing; any other
string is parsed as day/month[/year], the current year being appended when
exactly one `/` is present, and a parse failure is a format error
(`ValueError`), never a type or index error; a non-string non-date-time input
fails with `TypeError`. The closed conjuncts check the spec's examples
`20/05/2002` and the invalid calendar date `31/02/2002`. -/
theorem validDate_spec (now : Now) (ot : Option Task) (tk : Task) (d : DT) (s s2 : String)
    (hs : isdigitL s.data = true)
    (h0 : s2 ≠ "") (h1 : s2 ≠ "today") (h2 : s2 ≠ "tomorrow")
    (h3 : isdigitL s2.data = false) (h4 : offsetFormB s2 = false) :
    validDate now ot (.dt d) = .ok d ∧
    validDate now ot (.str "today") = .ok now.toDT ∧
    validDate now ot (.str "tomorrow") = .ok (now.toDT + secondsPerDay) ∧
    validDate now ot (.str s) = .ok (now.toDT + (natOfDigits s.data : Int) * secondsPerDay) ∧
    validDate now (some tk) (.str ("+" ++ s)) =
      .ok (tk.dueDate + (natOfDigits s.data : Int) * secondsPerDay) ∧
    validDate now (some tk) (.str ("-" ++ s)) =
      .ok (tk.dueDate - (natOfDigits s.data : Int) * secondsPerDay) ∧
    validDate now none (.str ("+" ++ s)) = dateFallback now ("+" ++ s) ∧
    validDate now ot (.str s2) = dateFallback now s2 ∧
    validDate now (some tk) (.str "") = .error .indexError ∧
    validDate now none (.str "") = dateFallback now "" ∧
    dateFallback now s2 =
      stringToDatetime
        (if (splitSlash s2.data).length = 2 then s2 ++ "/" ++ toString now.year else s2) ∧
    (stringToDatetime s2 ≠ .error .typeError ∧ stringToDatetime s2 ≠ .error .indexError) ∧
    stringToDatetime "20/05/2002" = .ok (dtOfDate 2002 5 20) ∧
    stringToDatetime "31/02/2002" = .error .valueError ∧
    validDate now ot .other = .error .typeError := by
  obtain ⟨c0, r0, hsd⟩ : ∃ c0 r0, s.data = c0 :: r0 := by
    cases hq : s.data with
    | nil => rw [hq] at hs; exact absurd hs (by decide)
    | cons a l => exact ⟨a, l, rfl⟩
  have hs0 : isdigitL (c0 :: r0) = true := by rw [← hsd]; exact hs
  have hst : s ≠ "today" := by
    intro he; rw [he] at hs; exact absurd hs (by decide)
  have hstm : s ≠ "tomorrow" := by
    intro he; rw [he] at hs; exact absurd hs (by decide)
  have hpt : ("+" ++ s) ≠ "today" :=
    string_ne_of_head_ne _ _ '+' 't' s.data ['o', 'd', 'a', 'y'] (data_plus s) rfl (by decide)
  have hptm : ("+" ++ s) ≠ "tomorrow" :=
    string_ne_of_head_ne _ _ '+' 't' s.data ['o', 'm', 'o', 'r', 'r', 'o', 'w']
      (data_plus s) rfl (by decide)
  have hmt : ("-" ++ s) ≠ "today" :=
    string_ne_of_head_ne _ _ '-' 't' s.data ['o', 'd', 'a', 'y'] (data_minus s) rfl (by decide)
  have hmtm : ("-" ++ s) ≠ "tomorrow" :=
    string_ne_of_head_ne _ _ '-' 't' s.data ['o', 'm', 'o', 'r', 'r', 'o', 'w']
      (data_minus s) rfl (by decide)
  have hdp : isdigitL ("+" ++ s).data = false := by
    rw [data_plus]; exact isdigitL_cons_false _ _ (by decide)
  have hdm : isdigitL ("-" ++ s).data = false := by
    rw [data_minus]; exact isdigitL_cons_false _ _ (by decide)
  refine ⟨rfl, rfl, rfl, ?_, ?_, ?_, ?_, ?_, rfl, rfl, rfl,
    stringToDatetime_not_typeError s2, by decide, by decide, rfl⟩
  · show validDateStr now ot s = _
    simp only [validDateStr]
    rw [if_neg hst, if_neg hstm, if_pos hs]
  · show validDateStr now (some tk) ("+" ++ s) = _
    simp only [validDateStr]
    rw [if_neg hpt, if_neg hptm, if_neg (by rw [hdp]; simp), data_plus, hsd]
    show (if (('+' : Char) = '+' ∨ ('+' : Char) = '-') ∧ isdigitL (c0 :: r0) = true then
            if ('+' : Char) = '+' then
              Except.ok (tk.dueDate + (natOfDigits (c0 :: r0) : Int) * secondsPerDay)
            else Except.ok (tk.dueDate - (natOfDigits (c0 :: r0) : Int) * secondsPerDay)
          else dateFallback now ("+" ++ s)) = _
    rw [if_pos ⟨Or.inl rfl, hs0⟩, if_pos rfl]
  · show validDateStr now (some tk) ("-" ++ s) = _
    simp only [validDateStr]
    rw [if_neg hmt, if_neg hmtm, if_neg (by rw [hdm]; simp), data_minus, hsd]
    show (if (('-' : Char) = '+' ∨ ('-' : Char) = '-') ∧ isdigitL (c0 :: r0) = true then
            if ('-' : Char) = '+' then
              Except.ok (tk.dueDate + (natOfDigits (c0 :: r0) : Int) * secondsPerDay)
            else Except.ok (tk.dueDate - (natOfDigits (c0 :: r0) : Int) * secondsPerDay)
          else dateFallback now ("-" ++ s)) = _
    rw [if_pos ⟨Or.inr rfl, hs0⟩, if_neg (by decide)]
  · show validDateStr now none ("+" ++ s) = _
    simp only [validDateStr]
    rw [if_neg hpt, if_neg hptm, if_neg (by rw [hdp]; simp)]
  · show validDateStr now ot s2 = _
    simp only [validDateStr]
    rw [if_neg h1, if_neg h2, if_neg (by rw [h3]; simp)]
    cases ot with
    | none => rfl
    | some t =>
      cases hq : s2.data with
      | nil => exact absurd (@String.ext s2 "" hq) h0
      | cons a l =>
        cases l with
        | nil => rfl
        | cons b m =>
          have hg : ¬ ((a = '+' ∨ a = '-') ∧ isdigitL (b :: m) = true) := by
            have h4x := h4
            unfold offsetFormB at h4x
            rw [hq] at h4x
            exact of_decide_eq_false h4x
          show (if (a = '+' ∨ a = '-') ∧ isdigitL (b :: m) = true then
                  if a = '+' then
                    Except.ok (t.dueDate + (natOfDigits (b :: m) : Int) * secondsPerDay)
                  else Except.ok (t.dueDate - (natOfDigits (b :: m) : Int) * secondsPerDay)
                else dateFallback now s2) = dateFallback now s2
          rw [if_neg hg]


/-- C5 witness: the grammar applied at the spec's own examples — now is
March 10 2025, the digit string is `"2"`, the fallthrough text is `"20/05"`,
and the existing task is due 18/02/1930. -/
theorem validDate_spec_witness :
    (isdigitL ("2" : String).data = true ∧ ("20/05" : String) ≠ "" ∧
      ("20/05" : String) ≠ "today" ∧ ("20/05" : String) ≠ "tomorrow" ∧
      isdigitL ("20/05" : String).data = false ∧ offsetFormB "20/05" = false) ∧
    (validDate nowW none (.dt 42) = .ok 42 ∧
      validDate nowW none (.str "today") = .ok nowW.toDT ∧
      validDate nowW none (.str "tomorrow") = .ok (nowW.toDT + secondsPerDay) ∧
      validDate nowW none (.str "2") =
        .ok (nowW.toDT + (natOfDigits ("2" : String).data : Int) * secondsPerDay) ∧
      validDate nowW (some taskOld) (.str ("+" ++ "2")) =
        .ok (taskOld.dueDate + (natOfDigits ("2" : String).data : Int) * secondsPerDay) ∧
      validDate nowW (some taskOld) (.str ("-" ++ "2")) =
        .ok (taskOld.dueDate - (natOfDigits ("2" : String).data : Int) * secondsPerDay) ∧
      validDate nowW none (.str ("+" ++ "2")) = dateFallback nowW ("+" ++ "2") ∧
      validDate nowW none (.str "20/05") = dateFallback nowW "20/05" ∧
      validDate nowW (some taskOld) (.str "") = .error .indexError ∧
      validDate nowW none (.str "") = dateFallback nowW "" ∧
      dateFallback nowW "20/05" =
        stringToDatetime
          (if (splitSlash ("20/05" : String).data).length = 2 then
            "20/05" ++ "/" ++ toString nowW.year
          else "20/05") ∧
      (stringToDatetime "20/05" ≠ .error .typeError ∧
        stringToDatetime "20/05" ≠ .error .indexError) ∧
      stringToDatetime "20/05/2002" = .ok (dtOfDate 2002 5 20) ∧
      stringToDatetime "31/02/2002" = .error .valueError ∧
      validDate nowW none .other = .error .typeError) :=
  ⟨⟨by decide, by decide, by decide, by decide, by decide, by decide⟩,
    validDate_spec nowW none taskOld 42 "2" "20/05" (by decide) (by decide) (by decide)
      (by decide) (by decide) (by decide)⟩

end TM
